import Mathlib

/-!
# DatsCity: the in-memory word-tower engine of `main.go`

A shallow embedding of the package-level state of `main.go` (`completedTowers`,
`currentTower`, `totalScore`, `gameState`) and of the three handlers that read or
write it: `handleBuild`, `handleShuffle` (with `getShuffleWords` and `getWord`) and
`handleTowers`.

Modelling conventions.
* Go `int` values (ids, directions, coordinates, `ShuffleLeft`) are `Int`; the only
  arithmetic on them is `i + 1` over the 230 catalog indices and `ShuffleLeft--` on a
  positive value, neither of which can leave the 64-bit range.
* `Score` and `totalScore` are `float64` in the source but only ever hold sums of
  string lengths, which `float64` represents and adds exactly (below 2^53); they are
  `Nat` here.
* Go `len(s)` on a string is its number of UTF-8 bytes: `String.utf8ByteSize`.
* A handler is a function from the state before the call (and the decoded request)
  to the state after the call and the response written. The HTTP method check and
  JSON decoding happen before any state is touched and are not modelled.
* The upstream call made by `getShuffleWords` is an input of `handleShuffle`:
  either an error text or the list of words of the decoded reply.
* `time.Time` is a number of nanoseconds; `time.Now()` at start-up is a parameter of
  the initial state.
-/

namespace DatsCity

/-! ## Types of `main.go` -/

structure PublicError where
  Code : Int
  Message : String
deriving DecidableEq, Repr

structure DoneTowerResponse where
  ID : Int
  Score : Nat
deriving DecidableEq, Repr

structure TowerWordRequest where
  Dir : Int
  ID : Int
  Pos : Int × Int × Int
deriving DecidableEq, Repr

structure PlayerBuildRequest where
  Done : Bool
  Words : List TowerWordRequest
deriving DecidableEq, Repr

structure PlayerWord where
  Dir : Int
  Pos : Int × Int × Int
  Text : String
deriving DecidableEq, Repr

structure PlayerTowerResponse where
  Score : Nat
  Words : List PlayerWord
deriving DecidableEq, Repr

structure PlayerResponse where
  DoneTowers : List DoneTowerResponse
  Score : Nat
  Tower : PlayerTowerResponse
deriving DecidableEq, Repr

structure PlayerWordsResponse where
  ShuffleLeft : Int
  Words : List String
deriving DecidableEq, Repr

set_option linter.dupNamespace false in
structure Word where
  ID : Int
  Word : String
  Pos : Int × Int × Int
  Dir : Int
deriving DecidableEq, Repr

structure Tower where
  Words : List Word
  Score : Nat
  Done : Bool
deriving DecidableEq, Repr

structure GameState where
  MapSize : Int × Int × Int
  NextTurnSec : Int
  RoundEndsAt : Int
  ShuffleLeft : Int
  Turn : Int
  UsedIndexes : List Int
  Words : List Word
deriving DecidableEq, Repr

/-- The package-level variables of `main.go` that the handlers read and write.
`availableWords` is written once by `init` and is the constant below; `rounds` is
never read. -/
structure State where
  completedTowers : List Tower
  currentTower : Tower
  totalScore : Nat
  gameState : GameState
deriving DecidableEq, Repr

/-! ## The catalog -/

def wordList : List String := [
  "извратитель", "феноменология", "необъективность", "предплужник", "человеконенавистник", "подвозчица",
  "насадка", "лопушник", "обводчик", "онанист", "копуляция", "сизаль",
  "куркума", "мостовина", "пальба", "ясачник", "подсек", "собранность",
  "иммиграция", "придача", "электричка", "ихтиоз", "пчеловод", "предвестие",
  "гудронатор", "швейцарец", "детская", "армянин", "циркон", "чревоугодник",
  "счёска", "кутание", "погромщик", "полеводство", "передумывание", "успокоение",
  "переборщица", "дягиль", "космополитка", "ныряло", "мануфактурсоветник", "сардоникс",
  "туземка", "некомпетентность", "палас", "сутяжник", "бытовизм", "пылкость",
  "многомужие", "валидол", "парадизка", "прозодежда", "нечаянность", "обдирание",
  "разъяснитель", "мерка", "защитник", "соковыжималка", "наказуемость", "фикция",
  "подстраивание", "остойчивость", "опрощенец", "подвиливание", "взаимопроникновение", "сложность",
  "ларчик", "сочевичник", "перестрагивание", "синхронизм", "диагностирование", "оживка",
  "заслушание", "индейководство", "дешифратор", "лахтак", "пруссак", "брас",
  "наёмничество", "копировщик", "отмывание", "культпоход", "предстоящее", "алеут",
  "лампион", "замуровывание", "гаммаустановка", "маслодел", "неграмотность", "неразличимость",
  "штундизм", "причащение", "полифония", "кувыркание", "кан", "недогляд",
  "магичность", "синеватость", "клавикорд", "коммивояжёрство", "куранта", "издольщик",
  "майордом", "европеизация", "хлёсткость", "выверение", "флотилия", "фитиль",
  "идолопоклонство", "возникновение", "пасьянс", "микрорайон", "скальд", "подвижник",
  "вендетта", "неразвитость", "келейник", "порез", "допашка", "зюйд",
  "кольт", "атака", "прополис", "злостность", "склёпывание", "корд",
  "характеристичность", "гнездование", "отбой", "экстернат", "сапонин", "биогеоценология",
  "модернистка", "федералист", "осведомительница", "изгнание", "продукт", "шквара",
  "миноискатель", "колодезь", "усекание", "разгадчица", "коринка", "подслащивание",
  "ихтиология", "рассылание", "лимфоцит", "торошение", "перезарядка", "неумолимость",
  "блондин", "верховенство", "переснащивание", "плис", "мужественность", "агитация",
  "взвывание", "закройная", "землепашец", "недокос", "кирзач", "трапезарь",
  "крем", "нейропатология", "невольница", "тыквина", "классика", "скип",
  "гагаузка", "налокотник", "крахмаление", "келейница", "доктринёрство", "прожировка",
  "югослав", "неточность", "недоброжелательность", "подтаптывание", "слушательница", "поярок",
  "умирание", "рассечение", "наличник", "хлорофилл", "соглядатайство", "шествие",
  "регистратура", "навозоразбрасыватель", "порция", "правдолюбие", "кабель", "примирённость",
  "мраморщик", "цежение", "моторизация", "штабквартира", "тигрёнок", "замерзание",
  "ворожей", "развальца", "испытание", "кровельщик", "невыгодность", "страусятина",
  "сберегание", "распря", "лёсс", "тактильность", "даурка", "рецидивистка",
  "душевность", "привой", "корнетист", "подвязка", "дарение", "комизм",
  "соединитель", "автотягач", "кокаин", "подсол", "синтепон", "монарх",
  "жеребьёвка", "артишок", "клятвопреступление", "пристрагивание", "тюркизм", "разбежка",
  "прогрессивность", "опутывание"
]

/-- The loop of `init` filling `availableWords`: the word at index `i` gets id `i + 1`
and zero position and direction. -/
def mkAvailableWords : List String → Nat → List Word
  | [], _ => []
  | w :: ws, i => { ID := (i : Int) + 1, Word := w, Pos := (0, 0, 0), Dir := 0 } :: mkAvailableWords ws (i + 1)

def availableWords : List Word := mkAvailableWords wordList 0

/-- The zero value `Tower{}`. -/
def emptyTower : Tower := { Words := [], Score := 0, Done := false }

/-- The state left by `init`, started at time `now` (nanoseconds). -/
def initState (now : Int) : State :=
  { completedTowers := []
    currentTower := emptyTower
    totalScore := 0
    gameState :=
      { MapSize := (30, 30, 100)
        NextTurnSec := 60
        RoundEndsAt := now + 5 * 60 * 1000000000
        ShuffleLeft := 3
        Turn := 1
        UsedIndexes := []
        Words := [] } }

/-! ## `handleBuild` -/

/-- The closure of `handleBuild` that scans `availableWords` for an id and returns the
text of the first match, or the empty string. -/
def findWordText : List Word → Int → String
  | [], _ => ""
  | aw :: rest, id => if aw.ID = id then aw.Word else findWordText rest id

/-- The `alreadyUsed` scan of `handleBuild` over `gameState.UsedIndexes`. -/
def alreadyUsed : List Int → Int → Bool
  | [], _ => false
  | usedID :: rest, id => if id = usedID then true else alreadyUsed rest id

/-- The `Word` that `handleBuild` makes from one request item. -/
def toWord (r : TowerWordRequest) : Word :=
  { ID := r.ID, Dir := r.Dir, Pos := r.Pos, Word := findWordText availableWords r.ID }

def usedError (id : Int) : PublicError :=
  { Code := 1001, Message := s!"Word ID {id} already used" }

def notFoundError (id : Int) : PublicError :=
  { Code := 1002, Message := s!"Word with ID {id} not found" }

/-- One pass of the body of the `for` loop of `handleBuild` for a word that passed
both checks: append the word, record its id, add its length to the score. -/
def placeWord (s : State) (word : Word) : State :=
  { s with
    currentTower := { s.currentTower with
      Words := s.currentTower.Words ++ [word]
      Score := s.currentTower.Score + word.Word.utf8ByteSize }
    gameState := { s.gameState with UsedIndexes := s.gameState.UsedIndexes ++ [word.ID] } }

/-- The `for` loop of `handleBuild` over `req.Words`: the state it leaves and the
error it returned with, if any. -/
def buildLoop : List TowerWordRequest → State → State × Option PublicError
  | [], s => (s, none)
  | r :: rest, s =>
    let word := toWord r
    if alreadyUsed s.gameState.UsedIndexes word.ID then (s, some (usedError word.ID))
    else if word.Word = "" then (s, some (notFoundError word.ID))
    else buildLoop rest (placeWord s word)

/-- The `if req.Done` block of `handleBuild`. -/
def completeTower (s : State) : State :=
  let done : Tower := { s.currentTower with Done := true }
  { s with
    completedTowers := s.completedTowers ++ [done]
    totalScore := s.totalScore + done.Score
    currentTower := emptyTower
    gameState := { s.gameState with UsedIndexes := [] } }

/-- The response rendering at the end of `handleBuild` (lines 491-517). -/
def renderBuild (s : State) : PlayerResponse :=
  { Score := s.totalScore
    DoneTowers := s.completedTowers.foldl
      (fun acc tower => acc ++ [{ ID := 1, Score := tower.Score }]) []
    Tower :=
      { Score := s.currentTower.Score
        Words := s.currentTower.Words.foldl
          (fun acc word => acc ++ [{ Dir := word.Dir, Pos := word.Pos, Text := word.Word }]) [] } }

/-- The two ways `handleBuild` answers a decoded request: status 200 with a snapshot,
or status 400 with a `PublicError`. -/
inductive BuildResult where
  | ok (resp : PlayerResponse)
  | publicError (e : PublicError)
deriving DecidableEq, Repr

/-- `handleBuild` on a decoded request: the state after the call and the response. -/
def handleBuild (s : State) (req : PlayerBuildRequest) : State × BuildResult :=
  match buildLoop req.Words s with
  | (s1, some e) => (s1, .publicError e)
  | (s1, none) =>
    let s2 := if req.Done then completeTower s1 else s1
    (s2, .ok (renderBuild s2))

/-- The loop body of `handleBuild` run on every item of a list, in order, with both
checks passing: what the loop has done when it reaches the end of the list. -/
def placeAll (s : State) (items : List TowerWordRequest) : State :=
  items.foldl (fun st r => placeWord st (toWord r)) s

/-! ## `handleShuffle` -/

/-- What the upstream `/shuffle` call gave: a transport or decoding error, or the
`words` of the decoded reply. -/
inductive Upstream where
  | failed (msg : String)
  | words (ws : List String)
deriving DecidableEq, Repr

/-- The three ways `handleShuffle` answers. -/
inductive ShuffleResult where
  | ok (resp : PlayerWordsResponse)
  | publicError (e : PublicError)
  | httpError (msg : String)
deriving DecidableEq, Repr

/-- Go `getWord`: the first catalog entry whose text equals the string. -/
def getWord : List Word → String → Except String Word
  | [], wordString => .error s!"word not found with string: {wordString}"
  | word :: rest, wordString => if word.Word = wordString then .ok word else getWord rest wordString

/-- The resolving loop of `getShuffleWords`, `acc` being the slice `words`. -/
def resolveWords : List String → List Word → Except String (List Word)
  | [], acc => .ok acc
  | wordString :: rest, acc =>
    match getWord availableWords wordString with
    | .error e => .error e
    | .ok word => resolveWords rest (acc ++ [word])

/-- Go `getShuffleWords`, given what the upstream call returned. -/
def getShuffleWords : Upstream → Except String (List Word)
  | .failed msg => .error msg
  | .words ws => resolveWords ws []

/-- `handleShuffle`, given what the upstream call returns. -/
def handleShuffle (s : State) (up : Upstream) : State × ShuffleResult :=
  if s.gameState.ShuffleLeft ≤ 0 then
    (s, .publicError { Code := 2001, Message := "No shuffles left" })
  else
    match getShuffleWords up with
    | .error e => (s, .httpError e)
    | .ok newWords =>
      let s1 : State := { s with gameState := { s.gameState with ShuffleLeft := s.gameState.ShuffleLeft - 1 } }
      (s1, .ok
        { ShuffleLeft := s1.gameState.ShuffleLeft
          Words := newWords.foldl (fun words word => words ++ [word.Word]) [] })

/-- A sequence of build requests served one after the other, each handler call running
to its end before the next starts: the final state and the answers in order. -/
def buildRun : List PlayerBuildRequest → State → State × List BuildResult
  | [], s => (s, [])
  | req :: rest, s =>
    ((buildRun rest (handleBuild s req).1).1,
      (handleBuild s req).2 :: (buildRun rest (handleBuild s req).1).2)

/-- A sequence of shuffle requests served one after the other, each with what its own
upstream call returns: the final state and the answers in order. -/
def shuffleRun : List Upstream → State → State × List ShuffleResult
  | [], s => (s, [])
  | up :: rest, s =>
    ((shuffleRun rest (handleShuffle s up).1).1,
      (handleShuffle s up).2 :: (shuffleRun rest (handleShuffle s up).1).2)

/-! ## `handleTowers` -/

/-- The response rendering of `handleTowers` (lines 622-648). -/
def renderTowers (s : State) : PlayerResponse :=
  { Score := s.totalScore
    DoneTowers := s.completedTowers.foldl
      (fun acc tower => acc ++ [{ ID := 1, Score := tower.Score }]) []
    Tower :=
      { Score := s.currentTower.Score
        Words := s.currentTower.Words.foldl
          (fun acc word => acc ++ [{ Dir := word.Dir, Pos := word.Pos, Text := word.Word }]) [] } }

/-- `handleTowers`: the state after the call and the response. -/
def handleTowers (s : State) : State × PlayerResponse :=
  (s, renderTowers s)

/-! ## Reachable states -/

/-- The states the server can be in: the state left by `init`, followed by any
sequence of build, shuffle and towers requests. -/
inductive Reachable : State → Prop where
  | init (now : Int) : Reachable (initState now)
  | build (s : State) (req : PlayerBuildRequest) : Reachable s → Reachable (handleBuild s req).1
  | shuffle (s : State) (up : Upstream) : Reachable s → Reachable (handleShuffle s up).1
  | towers (s : State) : Reachable s → Reachable (handleTowers s).1

/-- The invariant of the reachable states that the proofs below carry along: scores
are the sums of the lengths of the placed words, the total is the sum of the completed
scores, the used ids are the ids of the active words, each active word carries the
catalog text of its id, no id is used twice, the active tower is not done, and the
shuffle allowance is not negative. -/
def Inv (s : State) : Prop :=
  s.currentTower.Score = (s.currentTower.Words.map fun w => w.Word.utf8ByteSize).sum ∧
  (∀ t ∈ s.completedTowers, t.Score = (t.Words.map fun w => w.Word.utf8ByteSize).sum) ∧
  s.totalScore = (s.completedTowers.map fun t => t.Score).sum ∧
  s.gameState.UsedIndexes = (s.currentTower.Words.map fun w => w.ID) ∧
  (∀ w ∈ s.currentTower.Words, w.Word ≠ "" ∧ w.Word = findWordText availableWords w.ID) ∧
  s.gameState.UsedIndexes.Nodup ∧
  s.currentTower.Done = false ∧
  0 ≤ s.gameState.ShuffleLeft

/-! ## The catalog and the two scans -/

theorem alreadyUsed_iff (used : List Int) (id : Int) :
    alreadyUsed used id = true ↔ id ∈ used := by
  induction used with
  | nil => simp [alreadyUsed]
  | cons u rest ih =>
    by_cases h : id = u
    · simp [alreadyUsed, h]
    · simp [alreadyUsed, h, ih]

theorem alreadyUsed_false_iff (used : List Int) (id : Int) :
    alreadyUsed used id = false ↔ id ∉ used := by
  rw [← alreadyUsed_iff]; simp

theorem findWordText_mk (ws : List String) (hne : ∀ w ∈ ws, w ≠ "") (k : Nat) (id : Int) :
    findWordText (mkAvailableWords ws k) id ≠ "" ↔ (k : Int) + 1 ≤ id ∧ id ≤ (k : Int) + ws.length := by
  induction ws generalizing k with
  | nil =>
    simp only [mkAvailableWords, findWordText, List.length_nil]
    constructor
    · intro h; exact absurd rfl h
    · intro h; have := h.1; have := h.2; push_cast at *; omega
  | cons w rest ih =>
    have hw : w ≠ "" := hne w (List.mem_cons_self _ _)
    have hrest : ∀ v ∈ rest, v ≠ "" := fun v hv => hne v (List.mem_cons_of_mem _ hv)
    simp only [mkAvailableWords, findWordText, List.length_cons]
    by_cases h : (k : Int) + 1 = id
    · simp only [h, if_true]
      constructor
      · intro _; push_cast; omega
      · intro _; exact hw
    · simp only [h, if_false]
      rw [ih hrest (k + 1)]
      push_cast
      omega

theorem findWordText_mk_mem (ws : List String) (k : Nat) (id : Int)
    (h : findWordText (mkAvailableWords ws k) id ≠ "") :
    findWordText (mkAvailableWords ws k) id ∈ ws := by
  induction ws generalizing k with
  | nil => simp [mkAvailableWords, findWordText] at h
  | cons w rest ih =>
    simp only [mkAvailableWords, findWordText] at h ⊢
    by_cases hk : (k : Int) + 1 = id
    · simp [hk]
    · simp only [hk, if_false] at h ⊢
      exact List.mem_cons_of_mem _ (ih (k + 1) h)

set_option maxRecDepth 100000 in
theorem wordList_ne_empty : ∀ w ∈ wordList, w ≠ "" := by decide

theorem wordList_length : wordList.length = 230 := by rfl

theorem findWordText_ne_empty_iff (id : Int) :
    findWordText availableWords id ≠ "" ↔ 1 ≤ id ∧ id ≤ (wordList.length : Int) := by
  have h := findWordText_mk wordList wordList_ne_empty 0 id
  simpa [availableWords] using h

theorem findWordText_mem (id : Int) (h : findWordText availableWords id ≠ "") :
    findWordText availableWords id ∈ wordList :=
  findWordText_mk_mem wordList 0 id h

/-! ## The loop of `handleBuild` -/

theorem placeAll_nil (s : State) : placeAll s [] = s := rfl

theorem placeAll_cons (s : State) (r : TowerWordRequest) (rest : List TowerWordRequest) :
    placeAll s (r :: rest) = placeAll (placeWord s (toWord r)) rest := rfl

theorem placeAll_eq (s : State) (items : List TowerWordRequest) :
    placeAll s items =
      { completedTowers := s.completedTowers
        totalScore := s.totalScore
        currentTower :=
          { Words := s.currentTower.Words ++ items.map toWord
            Score := s.currentTower.Score + (items.map fun r => (toWord r).Word.utf8ByteSize).sum
            Done := s.currentTower.Done }
        gameState := { s.gameState with
          UsedIndexes := s.gameState.UsedIndexes ++ items.map fun r => r.ID } } := by
  induction items generalizing s with
  | nil => simp [placeAll_nil]
  | cons r rest ih =>
    rw [placeAll_cons, ih]
    simp [placeWord, toWord, Nat.add_assoc]

/-- The loop of `handleBuild` either runs through the whole list, every item passing
both checks, or stops at the first item failing one of them, having placed the items
before it. -/
theorem buildLoop_spec (ws : List TowerWordRequest) (s : State) :
    (buildLoop ws s = (placeAll s ws, none) ∧
      (∀ r ∈ ws, findWordText availableWords r.ID ≠ "" ∧ r.ID ∉ s.gameState.UsedIndexes) ∧
      (ws.map fun r => r.ID).Nodup) ∨
    (∃ pre bad post, ws = pre ++ bad :: post ∧
      (∀ r ∈ pre, findWordText availableWords r.ID ≠ "" ∧ r.ID ∉ s.gameState.UsedIndexes) ∧
      (pre.map fun r => r.ID).Nodup ∧
      ((bad.ID ∈ s.gameState.UsedIndexes ++ (pre.map fun r => r.ID) ∧
          buildLoop ws s = (placeAll s pre, some (usedError bad.ID))) ∨
        (bad.ID ∉ s.gameState.UsedIndexes ++ (pre.map fun r => r.ID) ∧
          findWordText availableWords bad.ID = "" ∧
          buildLoop ws s = (placeAll s pre, some (notFoundError bad.ID))))) := by
  induction ws generalizing s with
  | nil => left; simp [buildLoop, placeAll_nil]
  | cons r rest ih =>
    by_cases hu : alreadyUsed s.gameState.UsedIndexes r.ID = true
    · right
      refine ⟨[], r, rest, rfl, by simp, by simp, Or.inl ⟨?_, ?_⟩⟩
      · simpa using (alreadyUsed_iff _ _).1 hu
      · simp [buildLoop, toWord, hu, placeAll_nil]
    · have hu' : r.ID ∉ s.gameState.UsedIndexes := fun h => hu ((alreadyUsed_iff _ _).2 h)
      by_cases hw : findWordText availableWords r.ID = ""
      · right
        refine ⟨[], r, rest, rfl, by simp, by simp, Or.inr ⟨?_, hw, ?_⟩⟩
        · simpa using hu'
        · simp [buildLoop, toWord, hu, hw, placeAll_nil]
      · have hstep : buildLoop (r :: rest) s = buildLoop rest (placeWord s (toWord r)) := by
          simp [buildLoop, toWord, hu, hw]
        have hused : (placeWord s (toWord r)).gameState.UsedIndexes =
            s.gameState.UsedIndexes ++ [r.ID] := rfl
        rcases ih (placeWord s (toWord r)) with ⟨hrun, hgood, hnd⟩ | ⟨pre, bad, post, hsplit, hgood, hnd, hbad⟩
        · left
          rw [hused] at hgood
          refine ⟨by rw [hstep, hrun, placeAll_cons], ?_, ?_⟩
          · intro x hx
            rcases List.mem_cons.1 hx with rfl | hx
            · exact ⟨hw, hu'⟩
            · exact ⟨(hgood x hx).1, fun h => (hgood x hx).2 (List.mem_append_left _ h)⟩
          · simp only [List.map_cons, List.nodup_cons]
            refine ⟨?_, hnd⟩
            intro hmem
            rcases List.mem_map.1 hmem with ⟨x, hx, hxid⟩
            exact (hgood x hx).2 (by simp [hxid])
        · right
          rw [hused] at hgood hbad
          refine ⟨r :: pre, bad, post, by simp [hsplit], ?_, ?_, ?_⟩
          · intro x hx
            rcases List.mem_cons.1 hx with rfl | hx
            · exact ⟨hw, hu'⟩
            · exact ⟨(hgood x hx).1, fun h => (hgood x hx).2 (List.mem_append_left _ h)⟩
          · simp only [List.map_cons, List.nodup_cons]
            refine ⟨?_, hnd⟩
            intro hmem
            rcases List.mem_map.1 hmem with ⟨x, hx, hxid⟩
            exact (hgood x hx).2 (by simp [hxid])
          · have happ : s.gameState.UsedIndexes ++ [r.ID] ++ (pre.map fun r => r.ID) =
                s.gameState.UsedIndexes ++ ((r :: pre).map fun r => r.ID) := by simp
            rw [happ] at hbad
            rcases hbad with ⟨hin, hrun⟩ | ⟨hnin, hemp, hrun⟩
            · exact Or.inl ⟨hin, by rw [hstep, hrun, placeAll_cons]⟩
            · exact Or.inr ⟨hnin, hemp, by rw [hstep, hrun, placeAll_cons]⟩

/-- A list of items that all pass both checks is placed whole. -/
theorem buildLoop_of_good (ws : List TowerWordRequest) (s : State)
    (hgood : ∀ r ∈ ws, findWordText availableWords r.ID ≠ "" ∧ r.ID ∉ s.gameState.UsedIndexes)
    (hnd : (ws.map fun r => r.ID).Nodup) :
    buildLoop ws s = (placeAll s ws, none) := by
  rcases buildLoop_spec ws s with ⟨hrun, _, _⟩ | ⟨pre, bad, post, hsplit, _, _, hbad⟩
  · exact hrun
  · exfalso
    have hmem : bad ∈ ws := by rw [hsplit]; simp
    rw [hsplit] at hnd
    simp only [List.map_append, List.map_cons] at hnd
    have hnotin : bad.ID ∉ (pre.map fun r => r.ID) := by
      intro h
      have := (List.nodup_append.1 hnd).2.2
      exact this h (List.mem_cons_self _ _) 
    rcases hbad with ⟨hin, _⟩ | ⟨_, hemp, _⟩
    · rcases List.mem_append.1 hin with h | h
      · exact (hgood bad hmem).2 h
      · exact hnotin h
    · exact (hgood bad hmem).1 hemp

/-- Whatever the loop of `handleBuild` returns, the state it leaves is the state before
with an initial segment of the items placed, each of which passed both checks. -/
theorem buildLoop_fst (ws : List TowerWordRequest) (s : State) :
    ∃ pre post, ws = pre ++ post ∧
      (∀ r ∈ pre, findWordText availableWords r.ID ≠ "" ∧ r.ID ∉ s.gameState.UsedIndexes) ∧
      (pre.map fun r => r.ID).Nodup ∧
      (buildLoop ws s).1 = placeAll s pre := by
  rcases buildLoop_spec ws s with ⟨hrun, hgood, hnd⟩ | ⟨pre, bad, post, hsplit, hgood, hnd, hbad⟩
  · exact ⟨ws, [], by simp, hgood, hnd, by rw [hrun]⟩
  · refine ⟨pre, bad :: post, hsplit, hgood, hnd, ?_⟩
    rcases hbad with ⟨_, hrun⟩ | ⟨_, _, hrun⟩ <;> rw [hrun]

/-! ## The invariant -/

theorem inv_init (now : Int) : Inv (initState now) := by
  simp [Inv, initState, emptyTower]

theorem inv_placeAll (s : State) (pre : List TowerWordRequest) (h : Inv s)
    (hgood : ∀ r ∈ pre, findWordText availableWords r.ID ≠ "" ∧ r.ID ∉ s.gameState.UsedIndexes)
    (hnd : (pre.map fun r => r.ID).Nodup) : Inv (placeAll s pre) := by
  obtain ⟨h1, h2, h3, h4, h5, h6, h7, h8⟩ := h
  rw [placeAll_eq]
  refine ⟨?_, h2, h3, ?_, ?_, ?_, h7, h8⟩
  · simp [h1, List.map_append, List.sum_append, Function.comp_def]
  · simp [h4, List.map_append, Function.comp_def, toWord]
  · intro w hw
    rcases List.mem_append.1 hw with hw | hw
    · exact h5 w hw
    · rcases List.mem_map.1 hw with ⟨r, hr, rfl⟩
      exact ⟨(hgood r hr).1, rfl⟩
  · refine List.nodup_append.2 ⟨h6, hnd, ?_⟩
    intro a ha hb
    rcases List.mem_map.1 hb with ⟨r, hr, rfl⟩
    exact (hgood r hr).2 ha

theorem inv_completeTower (s : State) (h : Inv s) : Inv (completeTower s) := by
  obtain ⟨h1, h2, h3, h4, h5, h6, h7, h8⟩ := h
  refine ⟨by simp [completeTower, emptyTower], ?_, ?_, by simp [completeTower, emptyTower],
    by simp [completeTower, emptyTower], by simp [completeTower], by simp [completeTower, emptyTower], h8⟩
  · intro t ht
    simp only [completeTower, List.mem_append, List.mem_singleton] at ht
    rcases ht with ht | rfl
    · exact h2 t ht
    · exact h1
  · simp [completeTower, h3, List.sum_append]

theorem inv_handleBuild (s : State) (req : PlayerBuildRequest) (h : Inv s) :
    Inv (handleBuild s req).1 := by
  obtain ⟨pre, post, _, hgood, hnd, hfst⟩ := buildLoop_fst req.Words s
  have hloop : Inv (buildLoop req.Words s).1 := by
    rw [hfst]; exact inv_placeAll s pre h hgood hnd
  unfold handleBuild
  rcases hres : buildLoop req.Words s with ⟨s1, _ | e⟩
  · rw [hres] at hloop
    by_cases hd : req.Done = true
    · simpa [hd] using inv_completeTower s1 hloop
    · simpa [hd] using hloop
  · rw [hres] at hloop
    exact hloop

theorem inv_handleShuffle (s : State) (up : Upstream) (h : Inv s) :
    Inv (handleShuffle s up).1 := by
  unfold handleShuffle
  by_cases hs : s.gameState.ShuffleLeft ≤ 0
  · simpa [hs] using h
  · simp only [hs, if_false]
    rcases getShuffleWords up with e | newWords
    · exact h
    · obtain ⟨h1, h2, h3, h4, h5, h6, h7, h8⟩ := h
      exact ⟨h1, h2, h3, h4, h5, h6, h7, by simp only; omega⟩

theorem reachable_inv (s : State) (h : Reachable s) : Inv s := by
  induction h with
  | init now => exact inv_init now
  | build s req _ ih => exact inv_handleBuild s req ih
  | shuffle s up _ ih => exact inv_handleShuffle s up ih
  | towers s _ ih => exact ih

/-- What `handleBuild` returns in terms of its loop: an error leaves the state the loop
left; otherwise the `done` block runs and the snapshot is rendered. -/
theorem handleBuild_of_error (s s1 : State) (req : PlayerBuildRequest) (e : PublicError)
    (h : buildLoop req.Words s = (s1, some e)) :
    handleBuild s req = (s1, BuildResult.publicError e) := by
  simp [handleBuild, h]

theorem handleBuild_of_none (s s1 : State) (req : PlayerBuildRequest)
    (h : buildLoop req.Words s = (s1, none)) :
    handleBuild s req =
      (if req.Done then completeTower s1 else s1,
        BuildResult.ok (renderBuild (if req.Done then completeTower s1 else s1))) := by
  simp [handleBuild, h]

/-- In a reachable state every used id is a catalog id. -/
theorem used_in_catalog (s : State) (hs : Reachable s) (id : Int)
    (hid : id ∈ s.gameState.UsedIndexes) : findWordText availableWords id ≠ "" := by
  obtain ⟨_, _, _, h4, h5, _⟩ := reachable_inv s hs
  rw [h4] at hid
  rcases List.mem_map.1 hid with ⟨w, hw, rfl⟩
  rw [← (h5 w hw).2]
  exact (h5 w hw).1

set_option maxRecDepth 100000 in
/-- Every word of the built-in catalog takes two bytes per character. -/
theorem wordList_two_bytes_per_char : ∀ w ∈ wordList, w.utf8ByteSize = 2 * w.length := by
  decide

/-! ## Build: what an error leaves behind -/

/-- C1 (counterexample): from the initial state, the batch `[id 1, id 1]` is answered
with error 1001 "already used", yet the first item stays placed: the state after the
call holds one word, used id 1 and score 22, and differs from the state before. -/
theorem build_error_mutates_state :
    Reachable (initState 0) ∧
    (handleBuild (initState 0)
      { Done := false
        Words := [{ Dir := 1, ID := 1, Pos := (0, 0, 0) }, { Dir := 1, ID := 1, Pos := (0, 0, 0) }] }).2
      = BuildResult.publicError { Code := 1001, Message := "Word ID 1 already used" } ∧
    (handleBuild (initState 0)
      { Done := false
        Words := [{ Dir := 1, ID := 1, Pos := (0, 0, 0) }, { Dir := 1, ID := 1, Pos := (0, 0, 0) }] }).1.gameState.UsedIndexes
      = [1] ∧
    (handleBuild (initState 0)
      { Done := false
        Words := [{ Dir := 1, ID := 1, Pos := (0, 0, 0) }, { Dir := 1, ID := 1, Pos := (0, 0, 0) }] }).1.currentTower.Score
      = 22 ∧
    (handleBuild (initState 0)
      { Done := false
        Words := [{ Dir := 1, ID := 1, Pos := (0, 0, 0) }, { Dir := 1, ID := 1, Pos := (0, 0, 0) }] }).1
      ≠ initState 0 :=
  ⟨Reachable.init 0, by decide, by decide, by decide, by decide⟩

/-- C1 (amended): when `handleBuild` answers with an error, the request splits at the
first failing item `bad` (already used: error 1001; else not in the catalog: error
1002); the state after the call is the state a successful build of the items before
`bad` alone (with `done = false`) leaves: `completedTowers`, `totalScore` and every
field of `gameState` but `UsedIndexes` are as before, the items before `bad` are
appended to the active tower, their ids to `UsedIndexes` and their lengths to the
score; when `bad` is the first item of the batch the state is identical to the state
before the call. -/
theorem build_error_keeps_earlier_items (s : State) (req : PlayerBuildRequest) (e : PublicError)
    (h : (handleBuild s req).2 = BuildResult.publicError e) :
    ∃ pre bad post, req.Words = pre ++ bad :: post ∧
      ((bad.ID ∈ s.gameState.UsedIndexes ++ (pre.map fun r => r.ID) ∧ e = usedError bad.ID) ∨
        (bad.ID ∉ s.gameState.UsedIndexes ++ (pre.map fun r => r.ID) ∧
          findWordText availableWords bad.ID = "" ∧ e = notFoundError bad.ID)) ∧
      handleBuild s { Done := false, Words := pre } =
        ((handleBuild s req).1, BuildResult.ok (renderBuild (handleBuild s req).1)) ∧
      (handleBuild s req).1.completedTowers = s.completedTowers ∧
      (handleBuild s req).1.totalScore = s.totalScore ∧
      (handleBuild s req).1.currentTower =
        { Words := s.currentTower.Words ++ pre.map toWord
          Score := s.currentTower.Score + (pre.map fun r => (toWord r).Word.utf8ByteSize).sum
          Done := s.currentTower.Done } ∧
      (handleBuild s req).1.gameState =
        { s.gameState with UsedIndexes := s.gameState.UsedIndexes ++ pre.map fun r => r.ID } ∧
      (pre = [] → (handleBuild s req).1 = s) := by
  rcases buildLoop_spec req.Words s with ⟨hrun, _, _⟩ | ⟨pre, bad, post, hsplit, hgood, hnd, hbad⟩
  · rw [handleBuild_of_none s _ req hrun] at h
    exact absurd h (by simp)
  · have hpre : handleBuild s { Done := false, Words := pre } =
        (placeAll s pre, BuildResult.ok (renderBuild (placeAll s pre))) := by
      rw [handleBuild_of_none s (placeAll s pre) _ (buildLoop_of_good pre s hgood hnd)]
      simp
    have hstate : ∃ e1, handleBuild s req = (placeAll s pre, BuildResult.publicError e1) ∧
        ((bad.ID ∈ s.gameState.UsedIndexes ++ (pre.map fun r => r.ID) ∧ e1 = usedError bad.ID) ∨
          (bad.ID ∉ s.gameState.UsedIndexes ++ (pre.map fun r => r.ID) ∧
            findWordText availableWords bad.ID = "" ∧ e1 = notFoundError bad.ID)) := by
      rcases hbad with ⟨hin, hrun⟩ | ⟨hnin, hemp, hrun⟩
      · exact ⟨_, handleBuild_of_error s _ req _ hrun, Or.inl ⟨hin, rfl⟩⟩
      · exact ⟨_, handleBuild_of_error s _ req _ hrun, Or.inr ⟨hnin, hemp, rfl⟩⟩
    obtain ⟨e1, hres, hcase⟩ := hstate
    rw [hres] at h
    have he : e1 = e := by simpa using h
    subst he
    rw [hres]
    refine ⟨pre, bad, post, hsplit, hcase, hpre, ?_, ?_, ?_, ?_, ?_⟩
    · simp [placeAll_eq]
    · simp [placeAll_eq]
    · simp [placeAll_eq]
    · simp [placeAll_eq]
    · intro hnil
      subst hnil
      rfl

/-- C1 (amended), at a concrete input: the batch `[id 1, id 1]` from the initial state. -/
theorem build_error_keeps_earlier_items_witness :
    (handleBuild (initState 0)
      { Done := false
        Words := [{ Dir := 1, ID := 1, Pos := (0, 0, 0) }, { Dir := 1, ID := 1, Pos := (0, 0, 0) }] }).2
      = BuildResult.publicError (usedError 1) ∧
    ∃ pre bad post,
      [({ Dir := 1, ID := 1, Pos := (0, 0, 0) } : TowerWordRequest), { Dir := 1, ID := 1, Pos := (0, 0, 0) }]
        = pre ++ bad :: post ∧
      (handleBuild (initState 0)
        { Done := false
          Words := [{ Dir := 1, ID := 1, Pos := (0, 0, 0) }, { Dir := 1, ID := 1, Pos := (0, 0, 0) }] }).1.currentTower.Words
        = (initState 0).currentTower.Words ++ pre.map toWord :=
  ⟨by decide,
    (build_error_keeps_earlier_items (initState 0)
      { Done := false
        Words := [{ Dir := 1, ID := 1, Pos := (0, 0, 0) }, { Dir := 1, ID := 1, Pos := (0, 0, 0) }] }
      (usedError 1) (by decide)).elim
      fun pre hp => hp.elim fun bad hb => hb.elim fun post hq =>
        ⟨pre, bad, post, hq.1, congrArg Tower.Words hq.2.2.2.2.2.1⟩⟩

/-! ## Build: when it fails and with which error -/

/-- C2: in a reachable state `handleBuild` returns a snapshot exactly when every
requested id is a catalog id (1..len(wordList)), none is in `UsedIndexes` and the
requested ids are pairwise distinct. When it fails, the request splits at the first
item `bad` that is unknown or already used (by the state before or by an earlier item
of the batch), all items before it being known, unused and distinct; the error is
1002 "not found" if the id of `bad` is not in the catalog and 1001 "already used" if
it is used, and an error 1001 is only ever reported for a catalog id. -/
theorem build_fails_exactly_on_bad_ids (s : State) (hs : Reachable s) (req : PlayerBuildRequest) :
    ((∃ resp, (handleBuild s req).2 = BuildResult.ok resp) ↔
      (∀ r ∈ req.Words, 1 ≤ r.ID ∧ r.ID ≤ (wordList.length : Int)) ∧
      (∀ r ∈ req.Words, r.ID ∉ s.gameState.UsedIndexes) ∧
      (req.Words.map fun r => r.ID).Nodup) ∧
    (∀ e, (handleBuild s req).2 = BuildResult.publicError e →
      ∃ pre bad post, req.Words = pre ++ bad :: post ∧
        (∀ r ∈ pre, (1 ≤ r.ID ∧ r.ID ≤ (wordList.length : Int)) ∧ r.ID ∉ s.gameState.UsedIndexes) ∧
        (pre.map fun r => r.ID).Nodup ∧
        (¬ (1 ≤ bad.ID ∧ bad.ID ≤ (wordList.length : Int)) ∨
          bad.ID ∈ s.gameState.UsedIndexes ∨ bad.ID ∈ (pre.map fun r => r.ID)) ∧
        (¬ (1 ≤ bad.ID ∧ bad.ID ≤ (wordList.length : Int)) → e = notFoundError bad.ID) ∧
        (bad.ID ∈ s.gameState.UsedIndexes ∨ bad.ID ∈ (pre.map fun r => r.ID) →
          e = usedError bad.ID) ∧
        (e.Code = 1001 ∨ e.Code = 1002) ∧
        (e.Code = 1001 → 1 ≤ bad.ID ∧ bad.ID ≤ (wordList.length : Int))) := by
  constructor
  · constructor
    · rintro ⟨resp, hresp⟩
      rcases buildLoop_spec req.Words s with ⟨_, hgood, hnd⟩ | ⟨pre, bad, post, _, _, _, hbad⟩
      · exact ⟨fun r hr => (findWordText_ne_empty_iff r.ID).1 (hgood r hr).1,
          fun r hr => (hgood r hr).2, hnd⟩
      · exfalso
        rcases hbad with ⟨_, hrun⟩ | ⟨_, _, hrun⟩ <;>
          · rw [handleBuild_of_error s _ req _ hrun] at hresp
            exact absurd hresp (by simp)
    · rintro ⟨hcat, hunused, hnd⟩
      have hrun := buildLoop_of_good req.Words s
        (fun r hr => ⟨(findWordText_ne_empty_iff r.ID).2 (hcat r hr), hunused r hr⟩) hnd
      rw [handleBuild_of_none s _ req hrun]
      exact ⟨_, rfl⟩
  · intro e he
    rcases buildLoop_spec req.Words s with ⟨hrun, _, _⟩ | ⟨pre, bad, post, hsplit, hgood, hnd, hbad⟩
    · rw [handleBuild_of_none s _ req hrun] at he
      exact absurd he (by simp)
    · refine ⟨pre, bad, post, hsplit,
        fun r hr => ⟨(findWordText_ne_empty_iff r.ID).1 (hgood r hr).1, (hgood r hr).2⟩, hnd, ?_⟩
      rcases hbad with ⟨hin, hrun⟩ | ⟨hnin, hemp, hrun⟩
      · rw [handleBuild_of_error s _ req _ hrun] at he
        have he1 : usedError bad.ID = e := by simpa using he
        have hcat : 1 ≤ bad.ID ∧ bad.ID ≤ (wordList.length : Int) := by
          apply (findWordText_ne_empty_iff bad.ID).1
          rcases List.mem_append.1 hin with h | h
          · exact used_in_catalog s hs bad.ID h
          · rcases List.mem_map.1 h with ⟨r, hr, hrid⟩
            rw [← hrid]
            exact (hgood r hr).1
        refine ⟨Or.inr (List.mem_append.1 hin), fun hno => absurd hcat hno, fun _ => he1.symm,
          ?_, fun _ => hcat⟩
        rw [← he1]
        exact Or.inl rfl
      · rw [handleBuild_of_error s _ req _ hrun] at he
        have he1 : notFoundError bad.ID = e := by simpa using he
        have hcat : ¬ (1 ≤ bad.ID ∧ bad.ID ≤ (wordList.length : Int)) :=
          fun h => (findWordText_ne_empty_iff bad.ID).2 h hemp
        refine ⟨Or.inl hcat, fun _ => he1.symm,
          fun h => absurd (List.mem_append.2 h) hnin, ?_, ?_⟩
        · rw [← he1]
          exact Or.inr rfl
        · rw [← he1]
          intro h
          simp [notFoundError] at h

/-- C2, at a concrete input: from the initial state, the batch `[id 1, id 0]` fails. -/
theorem build_fails_exactly_on_bad_ids_witness :
    Reachable (initState 0) ∧
    ((∃ resp, (handleBuild (initState 0)
        { Done := false
          Words := [{ Dir := 1, ID := 1, Pos := (0, 0, 0) }, { Dir := 2, ID := 0, Pos := (0, 0, 1) }] }).2
        = BuildResult.ok resp) ↔
      (∀ r ∈ [({ Dir := 1, ID := 1, Pos := (0, 0, 0) } : TowerWordRequest),
          { Dir := 2, ID := 0, Pos := (0, 0, 1) }], 1 ≤ r.ID ∧ r.ID ≤ (wordList.length : Int)) ∧
      (∀ r ∈ [({ Dir := 1, ID := 1, Pos := (0, 0, 0) } : TowerWordRequest),
          { Dir := 2, ID := 0, Pos := (0, 0, 1) }], r.ID ∉ (initState 0).gameState.UsedIndexes) ∧
      ([({ Dir := 1, ID := 1, Pos := (0, 0, 0) } : TowerWordRequest),
          { Dir := 2, ID := 0, Pos := (0, 0, 1) }].map fun r => r.ID).Nodup) :=
  ⟨Reachable.init 0,
    (build_fails_exactly_on_bad_ids (initState 0) (Reachable.init 0)
      { Done := false
        Words := [{ Dir := 1, ID := 1, Pos := (0, 0, 0) }, { Dir := 2, ID := 0, Pos := (0, 0, 1) }] }).1⟩

/-! ## Build: completing a tower -/

/-- C3: after a successful build with `done = true`, `UsedIndexes` is empty, the active
tower has score 0, no words and `done = false`, `completedTowers` is the previous list
with one tower appended, which is done, holds the previous active words followed by
the words of the batch in request order and has the previous active score plus the
lengths of the batch words as score, and `totalScore` grew by that score. A successful
build with `done = false` leaves `completedTowers` and `totalScore` unchanged. -/
theorem build_done_completes_tower (s : State) (req : PlayerBuildRequest) (resp : PlayerResponse)
    (h : (handleBuild s req).2 = BuildResult.ok resp) :
    (req.Done = true →
      (handleBuild s req).1.gameState.UsedIndexes = [] ∧
      (handleBuild s req).1.currentTower.Score = 0 ∧
      (handleBuild s req).1.currentTower.Words = [] ∧
      (handleBuild s req).1.currentTower.Done = false ∧
      (handleBuild s req).1.completedTowers = s.completedTowers ++
        [{ Words := s.currentTower.Words ++ req.Words.map toWord
           Score := s.currentTower.Score + (req.Words.map fun r => (toWord r).Word.utf8ByteSize).sum
           Done := true }] ∧
      (handleBuild s req).1.totalScore = s.totalScore +
        (s.currentTower.Score + (req.Words.map fun r => (toWord r).Word.utf8ByteSize).sum)) ∧
    (req.Done = false →
      (handleBuild s req).1.completedTowers = s.completedTowers ∧
      (handleBuild s req).1.totalScore = s.totalScore) := by
  rcases buildLoop_spec req.Words s with ⟨hrun, _, _⟩ | ⟨pre, bad, post, _, _, _, hbad⟩
  · rw [handleBuild_of_none s _ req hrun]
    constructor
    · intro hd
      simp [hd, completeTower, placeAll_eq, emptyTower]
    · intro hd
      simp [hd, placeAll_eq]
  · exfalso
    rcases hbad with ⟨_, hrun⟩ | ⟨_, _, hrun⟩ <;>
      · rw [handleBuild_of_error s _ req _ hrun] at h
        exact absurd h (by simp)

/-- C3, at a concrete input: one word placed, then a second build with `done = true`. -/
theorem build_done_completes_tower_witness :
    (handleBuild
        (handleBuild (initState 0) { Done := false, Words := [{ Dir := 1, ID := 1, Pos := (0, 0, 0) }] }).1
        { Done := true, Words := [{ Dir := 2, ID := 2, Pos := (0, 0, 0) }] }).1.totalScore
      = 0 + (22 + (26 + 0)) ∧
    (handleBuild
        (handleBuild (initState 0) { Done := false, Words := [{ Dir := 1, ID := 1, Pos := (0, 0, 0) }] }).1
        { Done := true, Words := [{ Dir := 2, ID := 2, Pos := (0, 0, 0) }] }).1.gameState.UsedIndexes
      = [] :=
  ⟨((build_done_completes_tower
      (handleBuild (initState 0) { Done := false, Words := [{ Dir := 1, ID := 1, Pos := (0, 0, 0) }] }).1
      { Done := true, Words := [{ Dir := 2, ID := 2, Pos := (0, 0, 0) }] }
      _ rfl).1 rfl).2.2.2.2.2,
    by decide⟩

/-! ## Build: the score of a placed word -/

/-- C4 (counterexample): placing catalog word id 1, "извратитель" (11 characters), on
the initial state succeeds and raises the active score from 0 to 22, not to 11. -/
theorem placement_score_is_not_character_count :
    Reachable (initState 0) ∧
    findWordText availableWords 1 = "извратитель" ∧
    "извратитель".length = 11 ∧
    (handleBuild (initState 0)
      { Done := false, Words := [{ Dir := 1, ID := 1, Pos := (0, 0, 0) }] }).2
      = BuildResult.ok
        { DoneTowers := []
          Score := 0
          Tower := { Score := 22, Words := [{ Dir := 1, Pos := (0, 0, 0), Text := "извратитель" }] } } ∧
    (initState 0).currentTower.Score = 0 ∧
    (handleBuild (initState 0)
      { Done := false, Words := [{ Dir := 1, ID := 1, Pos := (0, 0, 0) }] }).1.currentTower.Score
      = 22 ∧
    (handleBuild (initState 0)
      { Done := false, Words := [{ Dir := 1, ID := 1, Pos := (0, 0, 0) }] }).1.currentTower.Score
      ≠ (initState 0).currentTower.Score + (findWordText availableWords 1).length :=
  ⟨Reachable.init 0, by decide, by decide, by decide, by decide, by decide, by decide⟩

/-- C4 (amended): a successful build with `done = false` raises the active tower's
score by the sum, over the placed items, of the number of UTF-8 bytes of the catalog
text of the item's id (Go `len`); each such text is a word of the built-in catalog,
and for every word of the built-in catalog that number is twice its number of
characters (22 for word id 1). -/
theorem placement_scores_utf8_bytes (s : State) (req : PlayerBuildRequest) (resp : PlayerResponse)
    (hd : req.Done = false) (h : (handleBuild s req).2 = BuildResult.ok resp) :
    (handleBuild s req).1.currentTower.Score = s.currentTower.Score +
      (req.Words.map fun r => (findWordText availableWords r.ID).utf8ByteSize).sum ∧
    (∀ r ∈ req.Words, findWordText availableWords r.ID ∈ wordList ∧
      (findWordText availableWords r.ID).utf8ByteSize
        = 2 * (findWordText availableWords r.ID).length) ∧
    (∀ w ∈ wordList, w.utf8ByteSize = 2 * w.length) := by
  rcases buildLoop_spec req.Words s with ⟨hrun, hgood, _⟩ | ⟨pre, bad, post, _, _, _, hbad⟩
  · rw [handleBuild_of_none s _ req hrun]
    refine ⟨by simp [hd, placeAll_eq, toWord], ?_, wordList_two_bytes_per_char⟩
    intro r hr
    have hmem := findWordText_mem r.ID (hgood r hr).1
    exact ⟨hmem, wordList_two_bytes_per_char _ hmem⟩
  · exfalso
    rcases hbad with ⟨_, hrun⟩ | ⟨_, _, hrun⟩ <;>
      · rw [handleBuild_of_error s _ req _ hrun] at h
        exact absurd h (by simp)

/-- C4 (amended), at a concrete input: word id 1 placed on the initial state. -/
theorem placement_scores_utf8_bytes_witness :
    (handleBuild (initState 0)
      { Done := false, Words := [{ Dir := 1, ID := 1, Pos := (0, 0, 0) }] }).1.currentTower.Score
      = (initState 0).currentTower.Score +
        ([({ Dir := 1, ID := 1, Pos := (0, 0, 0) } : TowerWordRequest)].map
          fun r => (findWordText availableWords r.ID).utf8ByteSize).sum ∧
    (findWordText availableWords 1).utf8ByteSize = 22 :=
  ⟨(placement_scores_utf8_bytes (initState 0)
      { Done := false, Words := [{ Dir := 1, ID := 1, Pos := (0, 0, 0) }] } _ rfl rfl).1,
    by decide⟩

/-! ## Shuffle -/

theorem getWord_mk (ws : List String) (k : Nat) (w : String) (h : w ∈ ws) :
    ∃ word, getWord (mkAvailableWords ws k) w = Except.ok word ∧ word.Word = w := by
  induction ws generalizing k with
  | nil => simp at h
  | cons v rest ih =>
    by_cases hv : v = w
    · exact ⟨{ ID := (k : Int) + 1, Word := v, Pos := (0, 0, 0), Dir := 0 },
        by simp [mkAvailableWords, getWord, hv], hv⟩
    · have hmem : w ∈ rest := by
        rcases List.mem_cons.1 h with h | h
        · exact absurd h.symm hv
        · exact h
      obtain ⟨word, hword, htext⟩ := ih (k + 1) hmem
      exact ⟨word, by simp [mkAvailableWords, getWord, hv, hword], htext⟩

theorem resolveWords_ok (ws : List String) (acc : List Word) (h : ∀ w ∈ ws, w ∈ wordList) :
    ∃ out, resolveWords ws acc = Except.ok out := by
  induction ws generalizing acc with
  | nil => exact ⟨acc, rfl⟩
  | cons w rest ih =>
    obtain ⟨word, hword, _⟩ := getWord_mk wordList 0 w (h w (List.mem_cons_self _ _))
    obtain ⟨out, hout⟩ := ih (acc ++ [word]) (fun v hv => h v (List.mem_cons_of_mem _ hv))
    refine ⟨out, ?_⟩
    simp only [resolveWords, availableWords, hword]
    exact hout

theorem handleShuffle_none_left (s : State) (up : Upstream) (h : s.gameState.ShuffleLeft ≤ 0) :
    handleShuffle s up =
      (s, ShuffleResult.publicError { Code := 2001, Message := "No shuffles left" }) := by
  simp [handleShuffle, h]

theorem handleShuffle_ok (s : State) (ws : List String)
    (hpos : 0 < s.gameState.ShuffleLeft) (hres : ∀ w ∈ ws, w ∈ wordList) :
    (∃ resp, (handleShuffle s (Upstream.words ws)).2 = ShuffleResult.ok resp) ∧
    (handleShuffle s (Upstream.words ws)).1.gameState.ShuffleLeft = s.gameState.ShuffleLeft - 1 := by
  obtain ⟨out, hout⟩ := resolveWords_ok ws [] hres
  have hnot : ¬ s.gameState.ShuffleLeft ≤ 0 := by omega
  simp [handleShuffle, hnot, getShuffleWords, hout]

theorem handleShuffle_failure_keeps_state (s : State) (up : Upstream)
    (h : ∀ resp, (handleShuffle s up).2 ≠ ShuffleResult.ok resp) : (handleShuffle s up).1 = s := by
  unfold handleShuffle at h ⊢
  by_cases hs : s.gameState.ShuffleLeft ≤ 0
  · simp [hs]
  · simp only [hs, if_false] at h ⊢
    rcases hget : getShuffleWords up with e | newWords
    · rfl
    · rw [hget] at h
      exact absurd rfl (h _)

theorem shuffleRun_all_ok (pools : List (List String)) (s : State)
    (hleft : s.gameState.ShuffleLeft = (pools.length : Int))
    (hres : ∀ ws ∈ pools, ∀ w ∈ ws, w ∈ wordList) :
    (∀ r ∈ (shuffleRun (pools.map Upstream.words) s).2, ∃ resp, r = ShuffleResult.ok resp) ∧
    (shuffleRun (pools.map Upstream.words) s).1.gameState.ShuffleLeft = 0 := by
  induction pools generalizing s with
  | nil => simpa [shuffleRun] using hleft
  | cons ws rest ih =>
    have hpos : 0 < s.gameState.ShuffleLeft := by rw [hleft]; push_cast [List.length_cons]; omega
    obtain ⟨⟨resp, hresp⟩, hdec⟩ := handleShuffle_ok s ws hpos (hres ws (List.mem_cons_self _ _))
    have hleft1 : (handleShuffle s (Upstream.words ws)).1.gameState.ShuffleLeft = (rest.length : Int) := by
      rw [hdec, hleft]; push_cast [List.length_cons]; omega
    obtain ⟨hall, hzero⟩ := ih (handleShuffle s (Upstream.words ws)).1 hleft1
      (fun v hv => hres v (List.mem_cons_of_mem _ hv))
    refine ⟨?_, by simpa [shuffleRun] using hzero⟩
    intro r hr
    simp only [List.map_cons, shuffleRun, List.mem_cons] at hr
    rcases hr with rfl | hr
    · exact ⟨resp, hresp⟩
    · exact hall r hr

theorem getWord_mk_not_mem (ws : List String) (k : Nat) (w : String) (h : w ∉ ws) :
    getWord (mkAvailableWords ws k) w = Except.error s!"word not found with string: {w}" := by
  induction ws generalizing k with
  | nil => rfl
  | cons v rest ih =>
    have hv : ¬ v = w := fun hv => h (by simp [hv])
    have hrest : w ∉ rest := fun hm => h (List.mem_cons_of_mem _ hm)
    simp only [mkAvailableWords, getWord, hv, if_false]
    exact ih (k + 1) hrest

/-- The resolving loop stops at the first word that is not in the catalog, with the
error of `getWord` for that word. -/
theorem resolveWords_first_unresolvable (pre : List String) (w : String) (post : List String)
    (acc : List Word) (hpre : ∀ v ∈ pre, v ∈ wordList) (hw : w ∉ wordList) :
    resolveWords (pre ++ w :: post) acc = Except.error s!"word not found with string: {w}" := by
  induction pre generalizing acc with
  | nil =>
    simp only [List.nil_append, resolveWords, availableWords, getWord_mk_not_mem wordList 0 w hw]
  | cons v rest ih =>
    obtain ⟨word, hword, _⟩ := getWord_mk wordList 0 v (hpre v (List.mem_cons_self _ _))
    simp only [List.cons_append, resolveWords, availableWords, hword]
    exact ih (acc ++ [word]) (fun x hx => hpre x (List.mem_cons_of_mem _ hx))

/-- A list holding a word that is not in the catalog splits at the first such word. -/
theorem first_unresolvable_split (ws : List String) (h : ∃ w ∈ ws, w ∉ wordList) :
    ∃ pre w post, ws = pre ++ w :: post ∧ (∀ v ∈ pre, v ∈ wordList) ∧ w ∉ wordList := by
  induction ws with
  | nil =>
    obtain ⟨w, hw, _⟩ := h
    simp at hw
  | cons v rest ih =>
    by_cases hv : v ∈ wordList
    · obtain ⟨w, hw, hbad⟩ := h
      have hwrest : w ∈ rest := by
        rcases List.mem_cons.1 hw with rfl | hw
        · exact absurd hv hbad
        · exact hw
      obtain ⟨pre, x, post, hsplit, hpre, hx⟩ := ih ⟨w, hwrest, hbad⟩
      refine ⟨v :: pre, x, post, by simp [hsplit], ?_, hx⟩
      intro y hy
      rcases List.mem_cons.1 hy with rfl | hy
      · exact hv
      · exact hpre y hy
    · exact ⟨[], v, rest, rfl, by simp, hv⟩

theorem handleShuffle_fetch_error (s : State) (msg : String) (hpos : 0 < s.gameState.ShuffleLeft) :
    handleShuffle s (Upstream.failed msg) = (s, ShuffleResult.httpError msg) := by
  have hnot : ¬ s.gameState.ShuffleLeft ≤ 0 := by omega
  simp [handleShuffle, hnot, getShuffleWords]

theorem handleShuffle_unresolvable (s : State) (pre : List String) (w : String) (post : List String)
    (hpos : 0 < s.gameState.ShuffleLeft) (hpre : ∀ v ∈ pre, v ∈ wordList) (hw : w ∉ wordList) :
    handleShuffle s (Upstream.words (pre ++ w :: post)) =
      (s, ShuffleResult.httpError s!"word not found with string: {w}") := by
  have hnot : ¬ s.gameState.ShuffleLeft ≤ 0 := by omega
  simp only [handleShuffle, hnot, if_false, getShuffleWords,
    resolveWords_first_unresolvable pre w post [] hpre hw]

/-- C5: `handleShuffle` answers error 2001 "No shuffles left" and changes nothing when
`ShuffleLeft` is 0 (or below); when `ShuffleLeft > 0` and the upstream call returns
words that all occur in the catalog it succeeds and `ShuffleLeft` drops by exactly 1;
whenever it does not succeed the whole state is unchanged; from `ShuffleLeft = n`, `n`
calls with resolvable pools all succeed and the call after them fails with error 2001;
`ShuffleLeft` is never negative in a reachable state. The other two failing paths are
failures indeed, also when `ShuffleLeft > 0`: an upstream error is answered with that
error (status 500) and the state unchanged, and so is a pool holding a word that is
not in the catalog, the error being the one of the first such word; hence the handler
succeeds exactly when `ShuffleLeft > 0` and the upstream call returned words that all
occur in the catalog. -/
theorem shuffle_allowance (s : State) (up : Upstream) :
    (s.gameState.ShuffleLeft ≤ 0 →
      handleShuffle s up =
        (s, ShuffleResult.publicError { Code := 2001, Message := "No shuffles left" })) ∧
    (∀ ws, 0 < s.gameState.ShuffleLeft → up = Upstream.words ws → (∀ w ∈ ws, w ∈ wordList) →
      (∃ resp, (handleShuffle s up).2 = ShuffleResult.ok resp) ∧
      (handleShuffle s up).1.gameState.ShuffleLeft = s.gameState.ShuffleLeft - 1) ∧
    ((∀ resp, (handleShuffle s up).2 ≠ ShuffleResult.ok resp) → (handleShuffle s up).1 = s) ∧
    (∀ pools : List (List String), s.gameState.ShuffleLeft = (pools.length : Int) →
      (∀ ws ∈ pools, ∀ w ∈ ws, w ∈ wordList) →
      (shuffleRun (pools.map Upstream.words) s).2.length = pools.length ∧
      (∀ r ∈ (shuffleRun (pools.map Upstream.words) s).2, ∃ resp, r = ShuffleResult.ok resp) ∧
      handleShuffle (shuffleRun (pools.map Upstream.words) s).1 up =
        ((shuffleRun (pools.map Upstream.words) s).1,
          ShuffleResult.publicError { Code := 2001, Message := "No shuffles left" })) ∧
    (Reachable s → 0 ≤ s.gameState.ShuffleLeft) ∧
    (∀ msg, 0 < s.gameState.ShuffleLeft → up = Upstream.failed msg →
      handleShuffle s up = (s, ShuffleResult.httpError msg)) ∧
    (∀ pre w post, 0 < s.gameState.ShuffleLeft → up = Upstream.words (pre ++ w :: post) →
      (∀ v ∈ pre, v ∈ wordList) → w ∉ wordList →
      handleShuffle s up = (s, ShuffleResult.httpError s!"word not found with string: {w}")) ∧
    (∀ ws, 0 < s.gameState.ShuffleLeft → up = Upstream.words ws → (∃ w ∈ ws, w ∉ wordList) →
      ∃ w ∈ ws, w ∉ wordList ∧
        handleShuffle s up = (s, ShuffleResult.httpError s!"word not found with string: {w}")) ∧
    ((∃ resp, (handleShuffle s up).2 = ShuffleResult.ok resp) ↔
      0 < s.gameState.ShuffleLeft ∧ ∃ ws, up = Upstream.words ws ∧ ∀ w ∈ ws, w ∈ wordList) := by
  have hbad : ∀ ws, 0 < s.gameState.ShuffleLeft → (∃ w ∈ ws, w ∉ wordList) →
      ∃ w ∈ ws, w ∉ wordList ∧ handleShuffle s (Upstream.words ws) =
        (s, ShuffleResult.httpError s!"word not found with string: {w}") := by
    intro ws hpos hex
    obtain ⟨pre, w, post, hsplit, hpre, hw⟩ := first_unresolvable_split ws hex
    subst hsplit
    exact ⟨w, by simp, hw, handleShuffle_unresolvable s pre w post hpos hpre hw⟩
  refine ⟨handleShuffle_none_left s up, ?_, handleShuffle_failure_keeps_state s up, ?_, ?_,
    ?_, ?_, ?_, ?_⟩
  · intro ws hpos hup hres
    subst hup
    exact handleShuffle_ok s ws hpos hres
  · intro pools hleft hres
    obtain ⟨hall, hzero⟩ := shuffleRun_all_ok pools s hleft hres
    refine ⟨?_, hall, handleShuffle_none_left _ up (le_of_eq hzero)⟩
    clear hall hzero hleft hres hbad
    induction pools generalizing s with
    | nil => rfl
    | cons ws rest ih => simp [shuffleRun, ih]
  · intro hs
    exact (reachable_inv s hs).2.2.2.2.2.2.2
  · intro msg hpos hup
    subst hup
    exact handleShuffle_fetch_error s msg hpos
  · intro pre w post hpos hup hpre hw
    subst hup
    exact handleShuffle_unresolvable s pre w post hpos hpre hw
  · intro ws hpos hup hex
    subst hup
    exact hbad ws hpos hex
  · constructor
    · rintro ⟨resp, hresp⟩
      by_cases hpos : 0 < s.gameState.ShuffleLeft
      · refine ⟨hpos, ?_⟩
        cases up with
        | failed msg =>
          rw [handleShuffle_fetch_error s msg hpos] at hresp
          cases hresp
        | words ws =>
          refine ⟨ws, rfl, ?_⟩
          by_contra hnot
          push_neg at hnot
          obtain ⟨w, _, _, hrun⟩ := hbad ws hpos hnot
          rw [hrun] at hresp
          cases hresp
      · rw [handleShuffle_none_left s up (by omega)] at hresp
        cases hresp
    · rintro ⟨hpos, ws, hup, hres⟩
      subst hup
      exact (handleShuffle_ok s ws hpos hres).1

set_option maxRecDepth 100000 in
/-- C5, at concrete inputs: the initial state (allowance 3) with a one-word pool, three
such shuffles in a row, the state after them (allowance 0), and on the initial state a
failed upstream call and a pool whose second word is not in the catalog. -/
theorem shuffle_allowance_witness :
    ((∃ resp, (handleShuffle (initState 0) (Upstream.words ["извратитель"])).2 = ShuffleResult.ok resp) ∧
      (handleShuffle (initState 0) (Upstream.words ["извратитель"])).1.gameState.ShuffleLeft
        = (initState 0).gameState.ShuffleLeft - 1) ∧
    ((shuffleRun ([["извратитель"], ["кан"], ["извратитель"]].map Upstream.words) (initState 0)).2.length
        = [["извратитель"], ["кан"], ["извратитель"]].length ∧
      (∀ r ∈ (shuffleRun ([["извратитель"], ["кан"], ["извратитель"]].map Upstream.words)
          (initState 0)).2, ∃ resp, r = ShuffleResult.ok resp) ∧
      handleShuffle
          (shuffleRun ([["извратитель"], ["кан"], ["извратитель"]].map Upstream.words) (initState 0)).1
          (Upstream.words ["извратитель"]) =
        ((shuffleRun ([["извратитель"], ["кан"], ["извратитель"]].map Upstream.words) (initState 0)).1,
          ShuffleResult.publicError { Code := 2001, Message := "No shuffles left" })) ∧
    0 ≤ (initState 0).gameState.ShuffleLeft ∧
    handleShuffle
        (shuffleRun ([["извратитель"], ["кан"], ["извратитель"]].map Upstream.words) (initState 0)).1
        (Upstream.failed "timeout") =
      ((shuffleRun ([["извратитель"], ["кан"], ["извратитель"]].map Upstream.words) (initState 0)).1,
        ShuffleResult.publicError { Code := 2001, Message := "No shuffles left" }) ∧
    (handleShuffle (initState 0) (Upstream.words ["foo"])).1 = initState 0 ∧
    handleShuffle (initState 0) (Upstream.failed "timeout")
      = (initState 0, ShuffleResult.httpError "timeout") ∧
    handleShuffle (initState 0) (Upstream.words (["кан"] ++ "foo" :: ["извратитель"]))
      = (initState 0, ShuffleResult.httpError "word not found with string: foo") :=
  ⟨(shuffle_allowance (initState 0) (Upstream.words ["извратитель"])).2.1 ["извратитель"]
      (by decide) rfl (by decide),
    (shuffle_allowance (initState 0) (Upstream.words ["извратитель"])).2.2.2.1
      [["извратитель"], ["кан"], ["извратитель"]] (by decide) (by decide),
    (shuffle_allowance (initState 0) (Upstream.words ["извратитель"])).2.2.2.2.1 (Reachable.init 0),
    (shuffle_allowance
      (shuffleRun ([["извратитель"], ["кан"], ["извратитель"]].map Upstream.words) (initState 0)).1
      (Upstream.failed "timeout")).1 (by decide),
    (shuffle_allowance (initState 0) (Upstream.words ["foo"])).2.2.1 (by
      intro resp h
      have hfoo : (handleShuffle (initState 0) (Upstream.words ["foo"])).2
          = ShuffleResult.httpError "word not found with string: foo" := by decide
      rw [hfoo] at h
      cases h),
    (shuffle_allowance (initState 0) (Upstream.failed "timeout")).2.2.2.2.2.1 "timeout"
      (by decide) rfl,
    (shuffle_allowance (initState 0) (Upstream.words (["кан"] ++ "foo" :: ["извратитель"]))).2.2.2.2.2.2.1
      ["кан"] "foo" ["извратитель"] (by decide) rfl (by decide) (by decide)⟩

/-- C6 (the code at the failing input): on the initial state, with the upstream call
returning `["извратитель"]`, `handleShuffle` succeeds, answers with that word and the
allowance 2, and the resolved pool is the catalog entry of id 1, but `gameState.Words`
is still the empty list it was before: the resolved pool is never stored. -/
theorem shuffle_leaves_word_pool_unchanged :
    (handleShuffle (initState 0) (Upstream.words ["извратитель"])).2
      = ShuffleResult.ok { ShuffleLeft := 2, Words := ["извратитель"] } ∧
    getShuffleWords (Upstream.words ["извратитель"])
      = Except.ok [{ ID := 1, Word := "извратитель", Pos := (0, 0, 0), Dir := 0 }] ∧
    (initState 0).gameState.Words = [] ∧
    (handleShuffle (initState 0) (Upstream.words ["извратитель"])).1.gameState.Words = [] ∧
    (handleShuffle (initState 0) (Upstream.words ["извратитель"])).1.gameState.Words
      ≠ [{ ID := 1, Word := "извратитель", Pos := (0, 0, 0), Dir := 0 }] :=
  ⟨by decide, rfl, rfl, by decide, by decide⟩

/-! ## Snapshots -/

theorem foldl_append_singleton {α β : Type} (f : α → β) (l : List α) (acc : List β) :
    l.foldl (fun acc x => acc ++ [f x]) acc = acc ++ l.map f := by
  induction l generalizing acc with
  | nil => simp
  | cons x rest ih => simp [ih]

theorem handleBuild_ok_response (s : State) (req : PlayerBuildRequest) (resp : PlayerResponse)
    (h : (handleBuild s req).2 = BuildResult.ok resp) :
    resp = renderBuild (handleBuild s req).1 := by
  rcases hres : buildLoop req.Words s with ⟨s1, _ | e⟩
  · rw [handleBuild_of_none s s1 req hres] at h ⊢
    simpa using h.symm
  · rw [handleBuild_of_error s s1 req e hres] at h
    simp at h

/-- C7: `handleTowers` changes no state and renders the very `PlayerResponse` that
`handleBuild` renders from the same state, so the snapshot a successful build returns
is the snapshot `handleTowers` returns right after it: the total score is
`totalScore`, there is one done-tower entry per completed tower, in completion order
and with that tower's score, and the active tower's score and words (text, dir, pos)
come in placement order. -/
theorem towers_snapshot (s : State) :
    (handleTowers s).1 = s ∧
    (handleTowers s).2 = renderBuild s ∧
    (∀ req resp, (handleBuild s req).2 = BuildResult.ok resp →
      (handleTowers (handleBuild s req).1).2 = resp) ∧
    (handleTowers s).2.Score = s.totalScore ∧
    (handleTowers s).2.DoneTowers.length = s.completedTowers.length ∧
    ((handleTowers s).2.DoneTowers.map fun d => d.Score) = (s.completedTowers.map fun t => t.Score) ∧
    (handleTowers s).2.Tower.Score = s.currentTower.Score ∧
    (handleTowers s).2.Tower.Words =
      s.currentTower.Words.map fun w => { Dir := w.Dir, Pos := w.Pos, Text := w.Word } := by
  refine ⟨rfl, rfl, ?_, rfl, ?_, ?_, rfl, ?_⟩
  · intro req resp h
    rw [handleBuild_ok_response s req resp h]
    rfl
  · simp [handleTowers, renderTowers, foldl_append_singleton]
  · simp [handleTowers, renderTowers, foldl_append_singleton, Function.comp_def]
  · simp [handleTowers, renderTowers, foldl_append_singleton]

/-- C7, at a concrete input: a successful build on the initial state and the towers
request right after it. -/
theorem towers_snapshot_witness :
    (handleTowers (handleBuild (initState 0)
      { Done := true, Words := [{ Dir := 1, ID := 1, Pos := (0, 0, 0) }] }).1).2
      = { DoneTowers := [{ ID := 1, Score := 22 }], Score := 22, Tower := { Score := 0, Words := [] } } :=
  (towers_snapshot (initState 0)).2.2.1
    { Done := true, Words := [{ Dir := 1, ID := 1, Pos := (0, 0, 0) }] } _ (by decide)

/-- C8 (the code at the failing input): after two builds with `done = true` from the
initial state (word id 1, then word id 2), a reachable state, the snapshots of
`handleTowers` and of the second `handleBuild` list two done towers that both carry
the identifier 1. -/
theorem done_tower_ids_repeat :
    Reachable (handleBuild
      (handleBuild (initState 0) { Done := true, Words := [{ Dir := 1, ID := 1, Pos := (0, 0, 0) }] }).1
      { Done := true, Words := [{ Dir := 1, ID := 2, Pos := (0, 0, 0) }] }).1 ∧
    (handleTowers (handleBuild
      (handleBuild (initState 0) { Done := true, Words := [{ Dir := 1, ID := 1, Pos := (0, 0, 0) }] }).1
      { Done := true, Words := [{ Dir := 1, ID := 2, Pos := (0, 0, 0) }] }).1).2.DoneTowers
      = [{ ID := 1, Score := 22 }, { ID := 1, Score := 26 }] ∧
    (handleBuild
      (handleBuild (initState 0) { Done := true, Words := [{ Dir := 1, ID := 1, Pos := (0, 0, 0) }] }).1
      { Done := true, Words := [{ Dir := 1, ID := 2, Pos := (0, 0, 0) }] }).2
      = BuildResult.ok
        { DoneTowers := [{ ID := 1, Score := 22 }, { ID := 1, Score := 26 }]
          Score := 48
          Tower := { Score := 0, Words := [] } } ∧
    ¬ ((handleTowers (handleBuild
      (handleBuild (initState 0) { Done := true, Words := [{ Dir := 1, ID := 1, Pos := (0, 0, 0) }] }).1
      { Done := true, Words := [{ Dir := 1, ID := 2, Pos := (0, 0, 0) }] }).1).2.DoneTowers.map
        fun d => d.ID).Nodup :=
  ⟨Reachable.build _ _ (Reachable.build _ _ (Reachable.init 0)), by decide, by decide, by decide⟩

/-! ## Score invariants of the reachable states -/

/-- C9: in every reachable state the active tower's score is the sum, over its words in
order, of the length of the word's text as `handleBuild` measures it (Go `len`), and
so is the score of every tower in `completedTowers`. -/
theorem running_score_matches_words (s : State) (h : Reachable s) :
    s.currentTower.Score = (s.currentTower.Words.map fun w => w.Word.utf8ByteSize).sum ∧
    ∀ t ∈ s.completedTowers, t.Score = (t.Words.map fun w => w.Word.utf8ByteSize).sum :=
  ⟨(reachable_inv s h).1, (reachable_inv s h).2.1⟩

/-- C9, at a concrete reachable state: a completed tower (word 2), then a failing batch
that leaves word 1 placed, then a towers request. -/
theorem running_score_matches_words_witness :
    Reachable (handleTowers (handleBuild
      (handleBuild (initState 0) { Done := true, Words := [{ Dir := 1, ID := 2, Pos := (0, 0, 0) }] }).1
      { Done := false
        Words := [{ Dir := 1, ID := 1, Pos := (0, 0, 0) }, { Dir := 3, ID := 231, Pos := (0, 0, 0) }] }).1).1 ∧
    (handleTowers (handleBuild
      (handleBuild (initState 0) { Done := true, Words := [{ Dir := 1, ID := 2, Pos := (0, 0, 0) }] }).1
      { Done := false
        Words := [{ Dir := 1, ID := 1, Pos := (0, 0, 0) }, { Dir := 3, ID := 231, Pos := (0, 0, 0) }] }).1).1.currentTower.Score
      = ((handleTowers (handleBuild
        (handleBuild (initState 0) { Done := true, Words := [{ Dir := 1, ID := 2, Pos := (0, 0, 0) }] }).1
        { Done := false
          Words := [{ Dir := 1, ID := 1, Pos := (0, 0, 0) }, { Dir := 3, ID := 231, Pos := (0, 0, 0) }] }).1).1.currentTower.Words.map
          fun w => w.Word.utf8ByteSize).sum :=
  ⟨Reachable.towers _ (Reachable.build _ _ (Reachable.build _ _ (Reachable.init 0))),
    (running_score_matches_words _
      (Reachable.towers _ (Reachable.build _ _ (Reachable.build _ _ (Reachable.init 0))))).1⟩

/-- C10: in every reachable state `totalScore` is the sum of the scores of the towers
in `completedTowers`. -/
theorem total_score_is_sum_of_completed (s : State) (h : Reachable s) :
    s.totalScore = (s.completedTowers.map fun t => t.Score).sum :=
  (reachable_inv s h).2.2.1

/-- C10, at a concrete reachable state: two towers completed, a shuffle in between. -/
theorem total_score_is_sum_of_completed_witness :
    Reachable (handleBuild
      (handleShuffle
        (handleBuild (initState 0) { Done := true, Words := [{ Dir := 1, ID := 1, Pos := (0, 0, 0) }] }).1
        (Upstream.words ["кан"])).1
      { Done := true, Words := [{ Dir := 1, ID := 2, Pos := (0, 0, 0) }] }).1 ∧
    (handleBuild
      (handleShuffle
        (handleBuild (initState 0) { Done := true, Words := [{ Dir := 1, ID := 1, Pos := (0, 0, 0) }] }).1
        (Upstream.words ["кан"])).1
      { Done := true, Words := [{ Dir := 1, ID := 2, Pos := (0, 0, 0) }] }).1.totalScore
      = ((handleBuild
        (handleShuffle
          (handleBuild (initState 0) { Done := true, Words := [{ Dir := 1, ID := 1, Pos := (0, 0, 0) }] }).1
          (Upstream.words ["кан"])).1
        { Done := true, Words := [{ Dir := 1, ID := 2, Pos := (0, 0, 0) }] }).1.completedTowers.map
          fun t => t.Score).sum :=
  ⟨Reachable.build _ _ (Reachable.shuffle _ _ (Reachable.build _ _ (Reachable.init 0))),
    total_score_is_sum_of_completed _
      (Reachable.build _ _ (Reachable.shuffle _ _ (Reachable.build _ _ (Reachable.init 0))))⟩

/-! ## Used ids and the active tower -/

/-- The text the scan of `handleBuild` finds for an id is the catalog word at index
`id - 1` (index `id - k - 1` when the ids start at `k + 1`). -/
theorem findWordText_mk_index (ws : List String) (hne : ∀ w ∈ ws, w ≠ "") (k : Nat) (id : Int)
    (h : findWordText (mkAvailableWords ws k) id ≠ "") :
    ws[(id - k - 1).toNat]? = some (findWordText (mkAvailableWords ws k) id) := by
  induction ws generalizing k with
  | nil => simp [mkAvailableWords, findWordText] at h
  | cons w rest ih =>
    have hrest : ∀ v ∈ rest, v ≠ "" := fun v hv => hne v (List.mem_cons_of_mem _ hv)
    simp only [mkAvailableWords, findWordText] at h ⊢
    by_cases hk : (k : Int) + 1 = id
    · have hz : (id - (k : Int) - 1).toNat = 0 := by omega
      simp [hk, hz]
    · simp only [hk, if_false] at h ⊢
      have hrange := (findWordText_mk rest hrest (k + 1) id).1 h
      have hs : (id - (k : Int) - 1).toNat = (id - ((k + 1 : Nat) : Int) - 1).toNat + 1 := by
        have := hrange.1
        push_cast at this ⊢
        omega
      rw [hs, List.getElem?_cons_succ]
      exact ih hrest (k + 1) h

theorem findWordText_index (id : Int) (h : findWordText availableWords id ≠ "") :
    wordList[(id - 1).toNat]? = some (findWordText availableWords id) := by
  have := findWordText_mk_index wordList wordList_ne_empty 0 id h
  simpa [availableWords] using this

/-- C12: in every reachable state `gameState.UsedIndexes` is exactly the list of the ids
of `currentTower.Words` in placement order, these ids are pairwise distinct, each is a
catalog id (1..len(wordList)) and the text stored in the placed word is the catalog
text of that id (the word at index `id - 1` of `wordList`, which is what the scan of
`availableWords` returns), and `currentTower.Done` is false. -/
theorem used_ids_track_active_words (s : State) (h : Reachable s) :
    s.gameState.UsedIndexes = (s.currentTower.Words.map fun w => w.ID) ∧
    (s.currentTower.Words.map fun w => w.ID).Nodup ∧
    (∀ w ∈ s.currentTower.Words,
      (1 ≤ w.ID ∧ w.ID ≤ (wordList.length : Int)) ∧
      wordList[(w.ID - 1).toNat]? = some w.Word ∧
      findWordText availableWords w.ID = w.Word) ∧
    s.currentTower.Done = false := by
  obtain ⟨_, _, _, h4, h5, h6, h7, _⟩ := reachable_inv s h
  refine ⟨h4, by rw [← h4]; exact h6, ?_, h7⟩
  intro w hw
  obtain ⟨hne, htext⟩ := h5 w hw
  have hfound : findWordText availableWords w.ID ≠ "" := by rw [← htext]; exact hne
  refine ⟨(findWordText_ne_empty_iff w.ID).1 hfound, ?_, htext.symm⟩
  rw [htext]
  exact findWordText_index w.ID hfound

/-- C12, at a concrete reachable state: word 3 placed, then a batch whose second item
repeats id 5 and fails, then a shuffle. -/
theorem used_ids_track_active_words_witness :
    Reachable (handleShuffle (handleBuild
      (handleBuild (initState 0) { Done := false, Words := [{ Dir := 1, ID := 3, Pos := (0, 0, 0) }] }).1
      { Done := false
        Words := [{ Dir := 2, ID := 5, Pos := (0, 0, 1) }, { Dir := 3, ID := 5, Pos := (0, 1, 0) }] }).1
      (Upstream.words ["кан"])).1 ∧
    (handleShuffle (handleBuild
      (handleBuild (initState 0) { Done := false, Words := [{ Dir := 1, ID := 3, Pos := (0, 0, 0) }] }).1
      { Done := false
        Words := [{ Dir := 2, ID := 5, Pos := (0, 0, 1) }, { Dir := 3, ID := 5, Pos := (0, 1, 0) }] }).1
      (Upstream.words ["кан"])).1.gameState.UsedIndexes
      = ((handleShuffle (handleBuild
        (handleBuild (initState 0) { Done := false, Words := [{ Dir := 1, ID := 3, Pos := (0, 0, 0) }] }).1
        { Done := false
          Words := [{ Dir := 2, ID := 5, Pos := (0, 0, 1) }, { Dir := 3, ID := 5, Pos := (0, 1, 0) }] }).1
        (Upstream.words ["кан"])).1.currentTower.Words.map fun w => w.ID) ∧
    (handleShuffle (handleBuild
      (handleBuild (initState 0) { Done := false, Words := [{ Dir := 1, ID := 3, Pos := (0, 0, 0) }] }).1
      { Done := false
        Words := [{ Dir := 2, ID := 5, Pos := (0, 0, 1) }, { Dir := 3, ID := 5, Pos := (0, 1, 0) }] }).1
      (Upstream.words ["кан"])).1.gameState.UsedIndexes = [3, 5] :=
  ⟨Reachable.shuffle _ _ (Reachable.build _ _ (Reachable.build _ _ (Reachable.init 0))),
    (used_ids_track_active_words _
      (Reachable.shuffle _ _ (Reachable.build _ _ (Reachable.build _ _ (Reachable.init 0))))).1,
    by decide⟩

/-! ## Builds served one after the other -/

theorem placeAll_append (s : State) (a b : List TowerWordRequest) :
    placeAll s (a ++ b) = placeAll (placeAll s a) b := by
  simp [placeAll, List.foldl_append]

/-- Build requests with `done = false` whose ids are catalog ids, unused and pairwise
distinct across all the requests, served one after the other (no two handler calls
overlapping), all succeed and leave the state with all their items placed in order. -/
theorem buildRun_disjoint_ids (reqs : List PlayerBuildRequest) (s : State)
    (hdone : ∀ q ∈ reqs, q.Done = false)
    (hgood : ∀ r ∈ (reqs.map fun q => q.Words).flatten,
      findWordText availableWords r.ID ≠ "" ∧ r.ID ∉ s.gameState.UsedIndexes)
    (hnd : ((reqs.map fun q => q.Words).flatten.map fun r => r.ID).Nodup) :
    (∀ res ∈ (buildRun reqs s).2, ∃ resp, res = BuildResult.ok resp) ∧
    (buildRun reqs s).1 = placeAll s (reqs.map fun q => q.Words).flatten := by
  induction reqs generalizing s with
  | nil => simp [buildRun, placeAll_nil]
  | cons q rest ih =>
    simp only [List.map_cons, List.flatten_cons, List.map_append] at hgood hnd
    obtain ⟨hnd1, hnd2, hdisj⟩ := List.nodup_append.1 hnd
    have hq : buildLoop q.Words s = (placeAll s q.Words, none) :=
      buildLoop_of_good q.Words s (fun r hr => hgood r (List.mem_append_left _ hr)) hnd1
    have hstep : handleBuild s q =
        (placeAll s q.Words, BuildResult.ok (renderBuild (placeAll s q.Words))) := by
      rw [handleBuild_of_none s _ q hq]
      simp [hdone q (List.mem_cons_self _ _)]
    have hused : (placeAll s q.Words).gameState.UsedIndexes =
        s.gameState.UsedIndexes ++ q.Words.map fun r => r.ID := by
      rw [placeAll_eq]
    obtain ⟨hall, hstate⟩ := ih (placeAll s q.Words)
      (fun x hx => hdone x (List.mem_cons_of_mem _ hx))
      (by
        intro r hr
        refine ⟨(hgood r (List.mem_append_right _ hr)).1, ?_⟩
        rw [hused]
        intro hmem
        rcases List.mem_append.1 hmem with hmem | hmem
        · exact (hgood r (List.mem_append_right _ hr)).2 hmem
        · exact hdisj hmem (List.mem_map.2 ⟨r, hr, rfl⟩))
      hnd2
    constructor
    · intro res hres
      simp only [buildRun, hstep, List.mem_cons] at hres
      rcases hres with rfl | hres
      · exact ⟨_, rfl⟩
      · exact hall res hres
    · simp only [buildRun, hstep, List.map_cons, List.flatten_cons]
      rw [hstate, placeAll_append]

/-- The same, field by field: served one after the other, such builds all succeed, the
used ids end up being the previous ones followed by all the placed ids, and the active
score the previous one plus the lengths of all the placed words. -/
theorem buildRun_disjoint_ids_fields (reqs : List PlayerBuildRequest) (s : State)
    (hdone : ∀ q ∈ reqs, q.Done = false)
    (hgood : ∀ r ∈ (reqs.map fun q => q.Words).flatten,
      (1 ≤ r.ID ∧ r.ID ≤ (wordList.length : Int)) ∧ r.ID ∉ s.gameState.UsedIndexes)
    (hnd : ((reqs.map fun q => q.Words).flatten.map fun r => r.ID).Nodup) :
    (∀ res ∈ (buildRun reqs s).2, ∃ resp, res = BuildResult.ok resp) ∧
    (buildRun reqs s).1.gameState.UsedIndexes =
      s.gameState.UsedIndexes ++ ((reqs.map fun q => q.Words).flatten.map fun r => r.ID) ∧
    (buildRun reqs s).1.currentTower.Score =
      s.currentTower.Score +
        ((reqs.map fun q => q.Words).flatten.map fun r => (toWord r).Word.utf8ByteSize).sum := by
  obtain ⟨hall, hstate⟩ := buildRun_disjoint_ids reqs s hdone
    (fun r hr => ⟨(findWordText_ne_empty_iff r.ID).2 (hgood r hr).1, (hgood r hr).2⟩) hnd
  refine ⟨hall, ?_, ?_⟩
  · rw [hstate, placeAll_eq]
  · rw [hstate, placeAll_eq]

end DatsCity
